import Mathlib

/-!
Shallow embedding of `src/app/main.py` (TV Guide Recommender API):
the recommendation endpoint `related`, the ingestion endpoints `upsert`
and `bulk_ingest`, and the helper `build_signature`. Python payload
dictionaries are modelled as association lists over a small JSON-like
value type; the embedding model `model.encode` and the vector store
search are passed in as function arguments since they are external
capabilities. The HTTP 404 raised by `related` is modelled as the
`Except` error `HErr.notFound`.
-/

namespace Wattowa

/-- A Python value as it occurs in payloads: `None`, a string, or an int. -/
inductive Value where
  | vNull : Value
  | vStr (s : String) : Value
  | vInt (n : Int) : Value
deriving DecidableEq, Repr

/-- Python `str(v)` on a payload value. -/
def pyStr : Value → String
  | Value.vNull => "None"
  | Value.vStr s => s
  | Value.vInt n => toString n

/-- Python `isinstance(v, str)`. -/
def Value.isStr : Value → Bool
  | Value.vStr _ => true
  | _ => false

/-- A Python payload dict, modelled as an association list (keys unique in practice). -/
def Payload := List (String × Value)

instance : DecidableEq Payload := inferInstanceAs (DecidableEq (List (String × Value)))

/-- Python `key in payload`. -/
def Payload.hasKey (pl : Payload) (k : String) : Bool :=
  (List.lookup k pl).isSome

/-- Python `payload.get(key)` / `payload[key]`: `None` when the key is absent. -/
def Payload.pyGet (pl : Payload) (k : String) : Value :=
  (List.lookup k pl).getD Value.vNull

/-- Python truthiness of an `Optional[dict]` payload (`None` and `{}` are falsy). -/
def payloadTruthy : Option Payload → Bool
  | none => false
  | some [] => false
  | some (_ :: _) => true

/-- A point returned by `client.retrieve` (qdrant `Record`): optional vector, optional payload. -/
structure RetrievedPoint where
  id : Value
  vector : Option (List Float)
  payload : Option Payload

/-- A scored point returned by `client.search`. Qdrant ids may be ints or strings. -/
structure ScoredPoint where
  id : Value
  score : Float
  payload : Option Payload

/-- The qdrant filter built at lines 99-101:
`Filter(must=[FieldCondition(key=..., match=MatchValue(value=...))])`. -/
structure QFilter where
  key : String
  value : Value
deriving DecidableEq

/-- The `RelatedResponse` pydantic model. `title`/`start_time`/`channel` are the
raw values taken from the candidate payload (optional strings in practice). -/
structure RelatedResponse where
  content_id : String
  score : Float
  title : Value
  start_time : Value
  channel : Value

/-- Error type of the service: `HTTPException(status_code=404, ...)` at line 92. -/
inductive HErr where
  | notFound : HErr
deriving DecidableEq

/-- Lines 97-101 of `related`: the optional `same_channel` filter.
`same_channel is True and points[0].payload and "channel" in points[0].payload`. -/
def qFilterFor (same_channel : Option Bool) (payload : Option Payload) : Option QFilter :=
  if same_channel = some true then
    match payload with
    | some pl =>
        if payloadTruthy (some pl) = true ∧ pl.hasKey "channel" = true then
          some { key := "channel", value := pl.pyGet "channel" }
        else none
    | none => none
  else none

/-- The search request issued at lines 104-111: the anchor vector, the limit
`max(k + 1, 2)` and the optional filter. -/
structure SearchCall where
  queryVector : List Float
  limit : Int
  qfilter : Option QFilter

/-- Lines 85-111 of `related`: retrieve the anchor, fail with 404 when
`not points or points[0].vector is None`, otherwise build the search request. -/
def relatedSearchCall (k : Int) (same_channel : Option Bool)
    (points : List RetrievedPoint) : Except HErr SearchCall :=
  match points with
  | [] => Except.error HErr.notFound
  | p :: _ =>
      match p.vector with
      | none => Except.error HErr.notFound
      | some anchor_vec =>
          Except.ok { queryVector := anchor_vec
                      limit := max (k + 1) 2
                      qfilter := qFilterFor same_channel p.payload }

/-- Lines 118-131: build one `RelatedResponse` from a retained candidate,
stringifying a non-string stored `channel` value. -/
def mkResponse (p : ScoredPoint) : RelatedResponse :=
  let payload := p.payload.getD []
  let channel_val := payload.pyGet "channel"
  let channel_val :=
    if channel_val ≠ Value.vNull ∧ channel_val.isStr = false
    then Value.vStr (pyStr channel_val) else channel_val
  { content_id := pyStr p.id
    score := p.score
    title := payload.pyGet "title"
    start_time := payload.pyGet "start_time"
    channel := channel_val }

/-- The loop of lines 113-133: skip candidates whose stringified id equals
`content_id`, append the rest, and break as soon as `len(out) >= k`
(checked after each append; `outLen` is the current `len(out)`). -/
def postLoop (content_id : String) (k : Int) (res : List ScoredPoint)
    (outLen : Nat) : List RelatedResponse :=
  match res with
  | [] => []
  | p :: rest =>
      if pyStr p.id = content_id then postLoop content_id k rest outLen
      else
        if (outLen : Int) + 1 ≥ k then [mkResponse p]
        else mkResponse p :: postLoop content_id k rest (outLen + 1)

/-- Lines 113-134: the post-processing of the search results (`out = []` initially). -/
def relatedPost (content_id : String) (k : Int) (res : List ScoredPoint) :
    List RelatedResponse :=
  postLoop content_id k res 0

/-- Lines 80-134: the `related` endpoint. `points` is the result of
`client.retrieve` and `search` is the external `client.search` capability. -/
def related (content_id : String) (k : Int) (same_channel : Option Bool)
    (points : List RetrievedPoint) (search : SearchCall → List ScoredPoint) :
    Except HErr (List RelatedResponse) :=
  match relatedSearchCall k same_channel points with
  | Except.error e => Except.error e
  | Except.ok call => Except.ok (relatedPost content_id k (search call))

/-- Python `title or ""`: the default is taken when `title` is `None` or `""`. -/
def pyOrEmpty : Option String → String
  | none => ""
  | some s => if s = "" then "" else s

/-- Python truthiness of an `Optional[str]` (`None` and `""` are falsy). -/
def strTruthy : Option String → Bool
  | none => false
  | some s => ¬ s = ""

/-- Lines 240-244: `build_signature(title, description, genres, cast)`.
`parts = [title or ""]`, append `description` when truthy, join with `" \n"`. -/
def build_signature (title : Option String) (description : Option String)
    (genres : Option (List String)) (cast : Option (List String)) : String :=
  let parts := [pyOrEmpty title]
  let parts := if strTruthy description then parts ++ [description.getD ""] else parts
  String.intercalate " \n" parts

/-- Left-pad the decimal form of `n` with zeros to width `w`. -/
def zeroPad (w : Nat) (n : Nat) : String :=
  let s := toString n
  String.mk (List.replicate (w - s.length) '0') ++ s

/-- Proleptic-Gregorian civil date `(year, month, day)` from a count of days
since 1970-01-01 (the standard era-based algorithm used by `datetime`). -/
def civilFromDays (daysSinceEpoch : Int) : Int × Nat × Nat :=
  let z := daysSinceEpoch + 719468
  let era := z.fdiv 146097
  let doe := (z - era * 146097).toNat
  let yoe := (doe - doe / 1460 + doe / 36524 - doe / 146096) / 365
  let y : Int := (yoe : Int) + era * 400
  let doy := doe - (365 * yoe + yoe / 4 - yoe / 100)
  let mp := (5 * doy + 2) / 153
  let d := doy - (153 * mp + 2) / 5 + 1
  let m := if mp < 10 then mp + 3 else mp - 9
  (if m ≤ 2 then y + 1 else y, m, d)

/-- `datetime.fromtimestamp(ts, tz=timezone.utc).isoformat()` for an integer
number of epoch seconds: `YYYY-MM-DDTHH:MM:SS+00:00`. -/
def isoUtc (ts : Int) : String :=
  let days := ts.fdiv 86400
  let secs := (ts - days * 86400).toNat
  let ymd := civilFromDays days
  zeroPad 4 ymd.1.toNat ++ "-" ++ zeroPad 2 ymd.2.1 ++ "-" ++ zeroPad 2 ymd.2.2 ++
    "T" ++ zeroPad 2 (secs / 3600) ++ ":" ++ zeroPad 2 (secs % 3600 / 60) ++ ":" ++
    zeroPad 2 (secs % 60) ++ "+00:00"

/-- The `UpsertItem` pydantic model (lines 137-144). -/
structure UpsertItem where
  content_id : String
  title : String
  description : Option String
  genres : Option (List String)
  cast : Option (List String)
  channel : Option String
  start_time : Option String

/-- The `BulkIngestItem` pydantic model (lines 178-183). -/
structure BulkIngestItem where
  guid : String
  title : String
  description : Option String
  startTime : Option Int
  channelId : Option Int

/-- A point dict as passed to `client.upsert`: `{"id": ..., "vector": ..., "payload": ...}`. -/
structure IndexPoint where
  id : String
  vector : List Float
  payload : Payload

/-- An `Optional[str]` field as it is placed into a payload dict. -/
def optValStr : Option String → Value
  | none => Value.vNull
  | some s => Value.vStr s

/-- Lines 147-175: the point built by the single-item `upsert` endpoint.
All four metadata keys are always placed in the payload dict, absent
fields as `None`. `encode` is the external `model.encode` capability. -/
def upsertPoint (encode : String → List Float) (item : UpsertItem) : IndexPoint :=
  { id := item.content_id
    vector := encode (build_signature (some item.title) item.description none none)
    payload := [("title", Value.vStr item.title),
                ("description", optValStr item.description),
                ("channel", optValStr item.channel),
                ("start_time", optValStr item.start_time)] }

/-- Lines 206-208: `iso_time = None; if it.startTime: iso_time = ...isoformat()`.
Python truthiness: `startTime = 0` is falsy, so it is left as `None`. -/
def bulkIsoTime : Option Int → Value
  | none => Value.vNull
  | some n => if n = 0 then Value.vNull else Value.vStr (isoUtc n)

/-- Line 216: `str(it.channelId) if it.channelId is not None else None`. -/
def bulkChannelVal : Option Int → Value
  | none => Value.vNull
  | some n => Value.vStr (toString n)

/-- Lines 201-219: the point built for one item inside `bulk_ingest.encode_batch`. -/
def bulkEncodeItem (encode : String → List Float) (it : BulkIngestItem) : IndexPoint :=
  { id := it.guid
    vector := encode (build_signature (some it.title) it.description none none)
    payload := [("title", Value.vStr it.title),
                ("description", optValStr it.description),
                ("channel", bulkChannelVal it.channelId),
                ("start_time", bulkIsoTime it.startTime)] }

/-- Lines 198-220: `encode_batch` maps the batch to its points, in order. -/
def encode_batch (encode : String → List Float) (batch : List BulkIngestItem) :
    List IndexPoint :=
  batch.map (bulkEncodeItem encode)

/-- Line 185. -/
def BATCH_SIZE : Nat := 500

/-- The observable steps of one `bulk_ingest` call, in program order:
encoding a batch (the `asyncio.to_thread(encode_batch, batch)` call),
upserting a batch's points (the `asyncio.to_thread(client.upsert, ...)` call),
and the `await asyncio.sleep(0)` yield after each batch. -/
inductive BulkEvent where
  | encodeB (batch : List BulkIngestItem) : BulkEvent
  | upsertB (points : List IndexPoint) : BulkEvent
  | yieldCtl : BulkEvent

/-- The successive slices `items[index:index+BATCH_SIZE]` taken by the
`while index < total` loop of lines 222-235. -/
def batchesOf : List BulkIngestItem → List (List BulkIngestItem)
  | [] => []
  | x :: xs =>
      (x :: xs).take BATCH_SIZE :: batchesOf ((x :: xs).drop BATCH_SIZE)
termination_by items => items.length
decreasing_by
  simp only [List.length_drop, List.length_cons, BATCH_SIZE]
  omega

/-- Lines 222-235: the ordered trace of steps performed by the `while` loop. -/
def bulkTrace (encode : String → List Float) : List BulkIngestItem → List BulkEvent
  | [] => []
  | x :: xs =>
      BulkEvent.encodeB ((x :: xs).take BATCH_SIZE) ::
        BulkEvent.upsertB (encode_batch encode ((x :: xs).take BATCH_SIZE)) ::
          BulkEvent.yieldCtl :: bulkTrace encode ((x :: xs).drop BATCH_SIZE)
termination_by items => items.length
decreasing_by
  simp only [List.length_drop, List.length_cons, BATCH_SIZE]
  omega

/-- Lines 187-238: `bulk_ingest` processes the items batch by batch and
returns `{"status": "ok", "count": total}` with `total = len(items)`. -/
def bulk_ingest (encode : String → List Float) (items : List BulkIngestItem) :
    List BulkEvent × Nat :=
  (bulkTrace encode items, items.length)

/-- The self-exclusion test of line 116, as a predicate on candidates:
a candidate is retained when its stringified id differs from `content_id`. -/
def nonSelf (content_id : String) (p : ScoredPoint) : Bool :=
  decide (¬ pyStr p.id = content_id)

/-- Recognizer for upsert events in a `bulk_ingest` trace. -/
def isUpsertB : BulkEvent → Bool
  | BulkEvent.upsertB _ => true
  | _ => false

/-- A trivial embedding capability used for concrete test inputs. -/
def encode0 : String → List Float := fun _ => []

/-- Test fixture: an anchor point with a vector and channel "1". -/
def ptA : RetrievedPoint :=
  { id := Value.vStr "a", vector := some [], payload := some [("channel", Value.vStr "1")] }

/-- Test fixture: an anchor point whose stored channel is the integer 2. -/
def ptC : RetrievedPoint :=
  { id := Value.vStr "c", vector := some [], payload := some [("channel", Value.vInt 2)] }

/-- Test fixture: a candidate with id "b" and no payload. -/
def candB : ScoredPoint := { id := Value.vStr "b", score := 0, payload := none }

/-- Test fixture: a candidate whose stored channel is the integer 7. -/
def candC : ScoredPoint :=
  { id := Value.vStr "c", score := 0, payload := some [("channel", Value.vInt 7)] }

/-- Test fixture: an `UpsertItem` with every optional field absent. -/
def item0 : UpsertItem :=
  { content_id := "x", title := "t", description := none, genres := none,
    cast := none, channel := none, start_time := none }

/-- Test fixture: a bulk item with `startTime = 0` (falsy in Python). -/
def it0 : BulkIngestItem :=
  { guid := "g", title := "t", description := none, startTime := some 0, channelId := none }

/-- Test fixture: a bulk item with no `startTime`. -/
def itN : BulkIngestItem :=
  { guid := "h", title := "t", description := none, startTime := none, channelId := none }

/-- Test fixture: a bulk item with a nonzero `startTime`. -/
def itT : BulkIngestItem :=
  { guid := "k", title := "t", description := none, startTime := some 1700000000,
    channelId := none }

/-- Test fixture: a bulk item with an integer channel id. -/
def itCh : BulkIngestItem :=
  { guid := "m", title := "t", description := none, startTime := none, channelId := some 3 }

/-!  Theorems.  -/

/-- Sanity check of the timestamp model: the epoch renders as expected. -/
theorem isoUtc_epoch : isoUtc 0 = "1970-01-01T00:00:00+00:00" := rfl

/-- Sanity check of the timestamp model on a modern timestamp. -/
theorem isoUtc_modern : isoUtc 1700000000 = "2023-11-14T22:13:20+00:00" := rfl

/-- Projecting the stringified candidate id out of a built response. -/
theorem mkResponse_content_id (p : ScoredPoint) :
    (mkResponse p).content_id = pyStr p.id := rfl

/-- A candidate whose stored channel is an integer is emitted with the
stringified channel (lines 119-122). -/
theorem mkResponse_channel_int (p : ScoredPoint) (n : Int)
    (h : (p.payload.getD []).pyGet "channel" = Value.vInt n) :
    (mkResponse p).channel = Value.vStr (toString n) := by
  unfold mkResponse
  simp only [h]
  split
  · rfl
  · rename_i hcond
    exact absurd ⟨by simp, rfl⟩ hcond

/-- Every element produced by the post-processing loop avoids the anchor id. -/
theorem postLoop_no_self (content_id : String) (k : Int) :
    ∀ (res : List ScoredPoint) (outLen : Nat) (r : RelatedResponse),
      r ∈ postLoop content_id k res outLen → ¬ r.content_id = content_id := by
  intro res
  induction res with
  | nil => intro outLen r hr; simp [postLoop] at hr
  | cons p rest ih =>
      intro outLen r hr
      by_cases hid : pyStr p.id = content_id
      · rw [postLoop, if_pos hid] at hr
        exact ih outLen r hr
      · rw [postLoop, if_neg hid] at hr
        by_cases hk : (outLen : Int) + 1 ≥ k
        · rw [if_pos hk] at hr
          have : r = mkResponse p := by simpa using hr
          rw [this, mkResponse_content_id]
          exact hid
        · rw [if_neg hk] at hr
          rcases (List.mem_cons.mp hr) with h1 | h2
          · rw [h1, mkResponse_content_id]; exact hid
          · exact ih (outLen + 1) r h2

/-- Every element produced by the loop is `mkResponse` of a retained candidate. -/
theorem postLoop_mem (content_id : String) (k : Int) :
    ∀ (res : List ScoredPoint) (outLen : Nat) (r : RelatedResponse),
      r ∈ postLoop content_id k res outLen →
      ∃ p, p ∈ res ∧ ¬ pyStr p.id = content_id ∧ r = mkResponse p := by
  intro res
  induction res with
  | nil => intro outLen r hr; simp [postLoop] at hr
  | cons p rest ih =>
      intro outLen r hr
      by_cases hid : pyStr p.id = content_id
      · rw [postLoop, if_pos hid] at hr
        obtain ⟨q, hq, hqs, hqr⟩ := ih outLen r hr
        exact ⟨q, List.mem_cons_of_mem _ hq, hqs, hqr⟩
      · rw [postLoop, if_neg hid] at hr
        by_cases hk : (outLen : Int) + 1 ≥ k
        · rw [if_pos hk] at hr
          have : r = mkResponse p := by simpa using hr
          exact ⟨p, List.mem_cons_self _ _, hid, this⟩
        · rw [if_neg hk] at hr
          rcases (List.mem_cons.mp hr) with h1 | h2
          · exact ⟨p, List.mem_cons_self _ _, hid, h1⟩
          · obtain ⟨q, hq, hqs, hqr⟩ := ih (outLen + 1) r h2
            exact ⟨q, List.mem_cons_of_mem _ hq, hqs, hqr⟩

/-- Length of the loop output: it collects retained candidates until the
running count reaches `k`. -/
theorem postLoop_length (content_id : String) (k : Int) :
    ∀ (res : List ScoredPoint) (outLen : Nat), (outLen : Int) < k →
      (postLoop content_id k res outLen).length =
        min (k.toNat - outLen) ((res.filter (nonSelf content_id)).length) := by
  intro res
  induction res with
  | nil => intro outLen h; simp [postLoop]
  | cons p rest ih =>
      intro outLen h
      by_cases hid : pyStr p.id = content_id
      · rw [postLoop, if_pos hid, ih outLen h]
        have : nonSelf content_id p = false := by simp [nonSelf, hid]
        simp [List.filter_cons, this]
      · have hns : nonSelf content_id p = true := by simp [nonSelf, hid]
        have hfc : (p :: rest).filter (nonSelf content_id) =
            p :: rest.filter (nonSelf content_id) := by
          simp [List.filter_cons, hns]
        by_cases hk : (outLen : Int) + 1 ≥ k
        · rw [postLoop, if_neg hid, if_pos hk, hfc]
          simp only [List.length_cons, List.length_nil]
          omega
        · rw [postLoop, if_neg hid, if_neg hk, hfc]
          simp only [List.length_cons]
          rw [ih (outLen + 1) (by omega)]
          omega

/-- When the anchor is retrieved with a vector, `related` succeeds and
post-processes the response to the issued search call. -/
theorem related_ok (content_id : String) (k : Int) (sc : Option Bool)
    (p : RetrievedPoint) (rest : List RetrievedPoint) (v : List Float)
    (search : SearchCall → List ScoredPoint) (hv : p.vector = some v) :
    related content_id k sc (p :: rest) search =
      Except.ok (relatedPost content_id k
        (search { queryVector := v, limit := max (k + 1) 2,
                  qfilter := qFilterFor sc p.payload })) := by
  simp [related, relatedSearchCall, hv]

/-- **C1** (amended: for `k ≥ 1`). For an anchor present with a vector and any
integer `k ≥ 1`, `related` returns exactly
`min(k, number of search candidates remaining after self-exclusion)` results,
and in particular at most `k`. (For `k ≤ 0` the code instead returns up to one
result, because the `len(out) >= k` break is only checked after an append —
see the counterexample.) -/
theorem related_count (content_id : String) (k : Int) (sc : Option Bool)
    (p : RetrievedPoint) (rest : List RetrievedPoint) (v : List Float)
    (search : SearchCall → List ScoredPoint)
    (hv : p.vector = some v) (hk : 1 ≤ k) :
    ∃ out, related content_id k sc (p :: rest) search = Except.ok out ∧
      out.length = min k.toNat
        (((search { queryVector := v, limit := max (k + 1) 2,
                    qfilter := qFilterFor sc p.payload }).filter
            (nonSelf content_id)).length) ∧
      (out.length : Int) ≤ k := by
  refine ⟨_, related_ok content_id k sc p rest v search hv, ?_, ?_⟩
  · rw [relatedPost, postLoop_length content_id k _ 0 (by omega)]
    omega
  · rw [relatedPost, postLoop_length content_id k _ 0 (by omega)]
    omega

/-- **C1** counterexample: with `k = 0`, an anchor with a vector and a single
non-self candidate, `related` returns one result, not `min(0, 1) = 0`; the
claimed bound `length ≤ k` fails for `k = 0`. -/
theorem related_count_cex :
    (related "a" 0 none [ptA] (fun _ => [candB])).map List.length = Except.ok 1 ∧
      ¬ ((1 : Int) ≤ 0) := by
  exact ⟨rfl, by decide⟩

/-- **C1** witness: at `k = 2` with one non-self candidate, `related` returns
`min(2, 1) = 1` result. -/
theorem related_count_witness :
    ∃ out, related "a" 2 none [ptA] (fun _ => [candB]) = Except.ok out ∧
      out.length = min (Int.toNat 2) (([candB].filter (nonSelf "a")).length) ∧
      (out.length : Int) ≤ 2 :=
  related_count "a" 2 none ptA [] [] (fun _ => [candB]) rfl (by decide)

/-- **C2**. No element of a successful `related` result carries the anchor's
`content_id`: the loop at lines 115-117 skips every candidate whose
stringified id equals the requested `content_id`. -/
theorem related_no_self (content_id : String) (k : Int) (sc : Option Bool)
    (points : List RetrievedPoint) (search : SearchCall → List ScoredPoint)
    (out : List RelatedResponse) (r : RelatedResponse)
    (hok : related content_id k sc points search = Except.ok out) (hr : r ∈ out) :
    ¬ r.content_id = content_id := by
  cases points with
  | nil => simp [related, relatedSearchCall] at hok
  | cons p rest =>
      cases hvec : p.vector with
      | none => simp [related, relatedSearchCall, hvec] at hok
      | some v =>
          rw [related_ok content_id k sc p rest v search hvec] at hok
          have hout : out = relatedPost content_id k
              (search { queryVector := v, limit := max (k + 1) 2,
                        qfilter := qFilterFor sc p.payload }) :=
            (Except.ok.inj hok).symm
          rw [hout] at hr
          exact postLoop_no_self content_id k _ 0 r hr

/-- **C2** witness: a concrete query whose single candidate "b" differs from
the anchor "a" yields a result whose `content_id` differs from "a". -/
theorem related_no_self_witness : ¬ (mkResponse candB).content_id = "a" :=
  related_no_self "a" 1 none [ptA] (fun _ => [candB]) [mkResponse candB]
    (mkResponse candB) rfl (List.mem_singleton.mpr rfl)

/-- **C3**. `related` fails with NotFound exactly when the retrieve call
returns no point for the id, or the returned point has no vector; in every
other case it succeeds (so it never turns the missing-anchor case into an
empty success, and never raises NotFound otherwise). -/
theorem related_notFound_iff (content_id : String) (k : Int) (sc : Option Bool)
    (points : List RetrievedPoint) (search : SearchCall → List ScoredPoint) :
    related content_id k sc points search = Except.error HErr.notFound ↔
      (points = [] ∨ ∃ p rest, points = p :: rest ∧ p.vector = none) := by
  cases points with
  | nil => simp [related, relatedSearchCall]
  | cons p rest =>
      cases hvec : p.vector with
      | none =>
          simp only [related, relatedSearchCall, hvec]
          constructor
          · intro _
            exact Or.inr ⟨p, rest, rfl, hvec⟩
          · intro _
            trivial
      | some v =>
          rw [related_ok content_id k sc p rest v search hvec]
          constructor
          · intro h
            exact absurd h (by simp)
          · rintro (h | ⟨q, qrest, hq, hqv⟩)
            · exact absurd h (by simp)
            · have : q = p := (List.cons.injEq _ _ _ _).mp hq |>.1.symm
              rw [this] at hqv
              rw [hqv] at hvec
              exact absurd hvec (by simp)

/-- **C3** witness: an empty retrieve result yields NotFound. -/
theorem related_notFound_witness :
    related "missing" 10 none [] (fun _ => []) = Except.error HErr.notFound :=
  (related_notFound_iff "missing" 10 none [] (fun _ => [])).mpr (Or.inl rfl)

/-- The filter of lines 97-101 is present exactly when `same_channel` is
`true` and the anchor payload has a `channel` key, and then it is the
equality condition on `channel` with the anchor's stored channel value. -/
theorem qFilterFor_some_iff (sc : Option Bool) (payload : Option Payload)
    (f : QFilter) :
    qFilterFor sc payload = some f ↔
      (sc = some true ∧ ∃ pl, payload = some pl ∧ pl.hasKey "channel" = true ∧
        f = { key := "channel", value := pl.pyGet "channel" }) := by
  constructor
  · intro h
    by_cases hsc : sc = some true
    · rw [qFilterFor.eq_def, if_pos hsc] at h
      cases hpl : payload with
      | none => rw [hpl] at h; exact absurd h (by simp)
      | some pl =>
          rw [hpl] at h
          dsimp only at h
          by_cases hc : payloadTruthy (some pl) = true ∧ pl.hasKey "channel" = true
          · rw [if_pos hc] at h
            have hf : f = { key := "channel", value := pl.pyGet "channel" } :=
              ((Option.some.injEq _ _).mp h).symm
            exact ⟨hsc, pl, rfl, hc.2, hf⟩
          · rw [if_neg hc] at h
            exact absurd h (by simp)
    · rw [qFilterFor.eq_def, if_neg hsc] at h
      exact absurd h (by simp)
  · rintro ⟨hsc, pl, hpl, hkey, hf⟩
    have hne : payloadTruthy (some pl) = true := by
      cases pl with
      | nil => simp [Payload.hasKey, List.lookup] at hkey
      | cons a l => rfl
    rw [qFilterFor.eq_def, if_pos hsc, hpl]
    dsimp only
    rw [if_pos ⟨hne, hkey⟩, hf]

/-- **C4**. For an anchor retrieved with a vector, the issued search carries
an equality filter on `channel` with the anchor's stored channel value
exactly when `same_channel` is `true` and the anchor payload has a
`channel` key; in every other case the search is issued with no filter. -/
theorem related_filter (k : Int) (sc : Option Bool) (p : RetrievedPoint)
    (rest : List RetrievedPoint) (v : List Float) (hv : p.vector = some v) :
    ∃ call, relatedSearchCall k sc (p :: rest) = Except.ok call ∧
      ∀ f, call.qfilter = some f ↔
        (sc = some true ∧ ∃ pl, p.payload = some pl ∧ pl.hasKey "channel" = true ∧
          f = { key := "channel", value := pl.pyGet "channel" }) := by
  refine ⟨{ queryVector := v, limit := max (k + 1) 2,
            qfilter := qFilterFor sc p.payload },
    by simp [relatedSearchCall, hv], ?_⟩
  intro f
  exact qFilterFor_some_iff sc p.payload f

/-- **C4** witness: `same_channel = true` with an anchor whose payload has
channel "1" issues the equality filter `channel == "1"`. -/
theorem related_filter_witness :
    (relatedSearchCall 10 (some true) [ptA]).map SearchCall.qfilter =
      Except.ok (some { key := "channel", value := Value.vStr "1" }) := by
  obtain ⟨call, hc, hiff⟩ := related_filter 10 (some true) ptA [] [] rfl
  rw [hc]
  have hq : call.qfilter = some { key := "channel", value := Value.vStr "1" } :=
    (hiff _).mpr ⟨rfl, [("channel", Value.vStr "1")], rfl, rfl, rfl⟩
  simp [Except.map, hq]

/-- **C9**. Channel values are normalized to strings at both boundaries:
bulk ingestion stores an integer `channelId` as its decimal string, and every
`related` result built from a candidate whose stored channel is an integer
carries the stringified channel. -/
theorem channel_stringified (encode : String → List Float) (it : BulkIngestItem)
    (content_id : String) (k : Int) (res : List ScoredPoint) :
    (∀ n, it.channelId = some n →
        ((bulkEncodeItem encode it).payload).pyGet "channel" =
          Value.vStr (toString n)) ∧
    (∀ r, r ∈ relatedPost content_id k res →
        ∃ p, p ∈ res ∧ r = mkResponse p ∧
          ∀ n, (p.payload.getD []).pyGet "channel" = Value.vInt n →
            r.channel = Value.vStr (toString n)) := by
  constructor
  · intro n hn
    have hbase : ((bulkEncodeItem encode it).payload).pyGet "channel" =
        bulkChannelVal it.channelId := rfl
    rw [hbase, hn]
    rfl
  · intro r hr
    obtain ⟨p, hp, _, hrp⟩ := postLoop_mem content_id k res 0 r hr
    exact ⟨p, hp, hrp, fun n hc => by rw [hrp]; exact mkResponse_channel_int p n hc⟩

/-- **C9** witness: `channelId = 3` is stored as "3", and a candidate stored
with integer channel 7 is returned with channel "7". -/
theorem channel_stringified_witness :
    ((bulkEncodeItem encode0 itCh).payload).pyGet "channel" = Value.vStr "3" ∧
      (mkResponse candC).channel = Value.vStr "7" := by
  constructor
  · exact (channel_stringified encode0 itCh "a" 1 [candC]).1 3 rfl
  · obtain ⟨p, hp, hrp, hch⟩ :=
      (channel_stringified encode0 itCh "a" 1 [candC]).2 (mkResponse candC)
        (List.mem_singleton.mpr rfl)
    have hpc : p = candC := List.mem_singleton.mp hp
    subst hpc
    exact hch 7 rfl

/-- **C10**. The `same_channel` filter uses the anchor's stored channel value
raw: for an anchor whose stored channel is the integer `n`, the issued filter
matches `vInt n`, not the string form — even though returned candidates with
an integer channel are normalized to its string form. -/
theorem filter_uses_raw_channel (k : Int) (rest : List RetrievedPoint)
    (p : RetrievedPoint) (pl : Payload) (n : Int) (v : List Float)
    (hv : p.vector = some v) (hpl : p.payload = some pl)
    (hch : pl.pyGet "channel" = Value.vInt n) :
    ∃ call, relatedSearchCall k (some true) (p :: rest) = Except.ok call ∧
      call.qfilter = some { key := "channel", value := Value.vInt n } ∧
      ¬ Value.vInt n = Value.vStr (toString n) ∧
      (∀ q : ScoredPoint, q.payload = some pl →
        (mkResponse q).channel = Value.vStr (toString n)) := by
  have hkey : pl.hasKey "channel" = true := by
    rw [Payload.pyGet] at hch
    cases hl : List.lookup "channel" pl with
    | none => rw [hl] at hch; exact absurd hch (by simp)
    | some w => simp [Payload.hasKey, hl]
  refine ⟨{ queryVector := v, limit := max (k + 1) 2,
            qfilter := qFilterFor (some true) p.payload },
    by simp [relatedSearchCall, hv], ?_, by simp, ?_⟩
  · have := (qFilterFor_some_iff (some true) p.payload
        { key := "channel", value := pl.pyGet "channel" }).mpr
      ⟨rfl, pl, hpl, hkey, rfl⟩
    show qFilterFor (some true) p.payload = _
    rw [this, hch]
  · intro q hq
    exact mkResponse_channel_int q n (by rw [hq]; exact hch)

/-- **C10** witness: an anchor stored with integer channel 2 issues the filter
`channel == vInt 2` (the raw value, not "2"). -/
theorem filter_uses_raw_channel_witness :
    (relatedSearchCall 10 (some true) [ptC]).map SearchCall.qfilter =
      Except.ok (some { key := "channel", value := Value.vInt 2 }) := by
  obtain ⟨call, hc, hq, _, _⟩ :=
    filter_uses_raw_channel 10 [] ptC [("channel", Value.vInt 2)] 2 [] rfl rfl rfl
  rw [hc]
  simp [Except.map, hq]

/-- The event trace of `bulk_ingest` is, batch by batch in input order:
encode the batch, upsert its points, yield. -/
theorem bulkTrace_eq (encode : String → List Float) :
    ∀ items : List BulkIngestItem,
      bulkTrace encode items = (batchesOf items).flatMap (fun b =>
        [BulkEvent.encodeB b, BulkEvent.upsertB (encode_batch encode b),
         BulkEvent.yieldCtl]) := by
  intro items
  induction items using batchesOf.induct with
  | case1 => simp [bulkTrace, batchesOf]
  | case2 x xs ih => simp [bulkTrace, batchesOf, ih]

/-- The batches concatenate back to the input, in order. -/
theorem batchesOf_flatten :
    ∀ items : List BulkIngestItem, (batchesOf items).flatten = items := by
  intro items
  induction items using batchesOf.induct with
  | case1 => simp [batchesOf]
  | case2 x xs ih => simp [batchesOf, ih]

/-- The number of batches is `ceil(N / BATCH_SIZE)`. -/
theorem batchesOf_length :
    ∀ items : List BulkIngestItem,
      (batchesOf items).length =
        (items.length + (BATCH_SIZE - 1)) / BATCH_SIZE := by
  intro items
  induction items using batchesOf.induct with
  | case1 => simp [batchesOf, BATCH_SIZE]
  | case2 x xs ih =>
      have hunf : batchesOf (x :: xs) =
          (x :: xs).take BATCH_SIZE :: batchesOf ((x :: xs).drop BATCH_SIZE) := by
        simp [batchesOf]
      rw [hunf, List.length_cons, ih, List.length_drop]
      simp only [List.length_cons, BATCH_SIZE]
      omega

/-- Every batch is nonempty and no longer than `BATCH_SIZE`. -/
theorem batchesOf_sizes (items : List BulkIngestItem) :
    ∀ b ∈ batchesOf items, 0 < b.length ∧ b.length ≤ BATCH_SIZE := by
  induction items using batchesOf.induct with
  | case1 => simp [batchesOf]
  | case2 x xs ih =>
      intro b hb
      have hunf : batchesOf (x :: xs) =
          (x :: xs).take BATCH_SIZE :: batchesOf ((x :: xs).drop BATCH_SIZE) := by
        simp [batchesOf]
      rw [hunf] at hb
      rcases List.mem_cons.mp hb with rfl | hb2
      · constructor
        · simp [BATCH_SIZE]
        · simp [List.length_take]
      · exact ih b hb2

/-- A batch is empty only when the remaining input is empty. -/
theorem batchesOf_eq_nil (items : List BulkIngestItem) :
    batchesOf items = [] ↔ items = [] := by
  cases items with
  | nil => simp [batchesOf]
  | cons x xs => simp [batchesOf]

/-- Every batch except possibly the last contains exactly `BATCH_SIZE` items. -/
theorem batchesOf_get_full :
    ∀ (items : List BulkIngestItem) (i : Nat) (b : List BulkIngestItem),
      i + 1 < (batchesOf items).length →
      (batchesOf items).get? i = some b → b.length = BATCH_SIZE := by
  intro items
  induction items using batchesOf.induct with
  | case1 => intro i b h hb; simp [batchesOf] at h
  | case2 x xs ih =>
      intro i b hlt hget
      have hunf : batchesOf (x :: xs) =
          (x :: xs).take BATCH_SIZE :: batchesOf ((x :: xs).drop BATCH_SIZE) := by
        simp [batchesOf]
      rw [hunf] at hlt hget
      cases i with
      | zero =>
          rw [List.get?_cons_zero] at hget
          have hb := Option.some.inj hget
          have hdrop : ¬ ((x :: xs).drop BATCH_SIZE = []) := by
            intro hd
            rw [(batchesOf_eq_nil _).mpr hd] at hlt
            simp at hlt
          have hlen : BATCH_SIZE < (x :: xs).length := by
            by_contra hle
            exact hdrop (List.drop_of_length_le (by omega))
          rw [← hb, List.length_take]
          omega
      | succ i =>
          rw [List.get?_cons_succ] at hget
          simp only [List.length_cons] at hlt
          exact ih i b (by omega) hget

/-- In the flat trace, batch `m`'s encode event sits at index `3m` and its
upsert event at index `3m + 1`; hence each batch's upsert precedes the next
batch's encode (at index `3(m+1)`). -/
theorem trace_positions (encode : String → List Float) :
    ∀ (bs : List (List BulkIngestItem)) (m : Nat), m < bs.length →
      ((bs.flatMap (fun b =>
          [BulkEvent.encodeB b, BulkEvent.upsertB (encode_batch encode b),
           BulkEvent.yieldCtl])).get? (3 * m) =
        (bs.get? m).map BulkEvent.encodeB ∧
       (bs.flatMap (fun b =>
          [BulkEvent.encodeB b, BulkEvent.upsertB (encode_batch encode b),
           BulkEvent.yieldCtl])).get? (3 * m + 1) =
        (bs.get? m).map (fun b => BulkEvent.upsertB (encode_batch encode b))) := by
  intro bs
  induction bs with
  | nil => intro m hm; simp at hm
  | cons b rest ih =>
      intro m hm
      cases m with
      | zero => simp
      | succ m =>
          have h3 : 3 * (m + 1) = (3 * m + 1) + 1 + 1 := by omega
          have h4 : 3 * (m + 1) + 1 = ((3 * m + 1) + 1) + 1 + 1 := by omega
          obtain ⟨ih1, ih2⟩ := ih m (by simpa using Nat.lt_of_succ_lt_succ hm)
          constructor
          · simp only [List.flatMap_cons, h3]
            simpa using ih1
          · simp only [List.flatMap_cons, h4]
            simpa using ih2

/-- Upsert events in the trace are exactly one per batch. -/
theorem trace_upsert_count (encode : String → List Float) :
    ∀ bs : List (List BulkIngestItem),
      ((bs.flatMap (fun b =>
          [BulkEvent.encodeB b, BulkEvent.upsertB (encode_batch encode b),
           BulkEvent.yieldCtl])).filter isUpsertB).length = bs.length := by
  intro bs
  induction bs with
  | nil => rfl
  | cons b rest ih => simp [List.flatMap_cons, List.filter_append, isUpsertB, ih]

/-- **C5**. `bulk_ingest` on `N` items issues exactly `ceil(N/500)` upserts;
the batches are the consecutive 500-item slices of the input in order (all of
size 500 except possibly the last); each batch's upsert event precedes the
next batch's encode event in the trace; and the returned count is `N`. -/
theorem bulk_ingest_batching (encode : String → List Float)
    (items : List BulkIngestItem) :
    ((bulk_ingest encode items).1 = (batchesOf items).flatMap (fun b =>
        [BulkEvent.encodeB b, BulkEvent.upsertB (encode_batch encode b),
         BulkEvent.yieldCtl])) ∧
    (((bulk_ingest encode items).1.filter isUpsertB).length =
        (items.length + (BATCH_SIZE - 1)) / BATCH_SIZE) ∧
    ((batchesOf items).flatten = items) ∧
    (∀ (i : Nat) (b : List BulkIngestItem),
        i + 1 < (batchesOf items).length →
        (batchesOf items).get? i = some b → b.length = BATCH_SIZE) ∧
    (∀ b ∈ batchesOf items, 0 < b.length ∧ b.length ≤ BATCH_SIZE) ∧
    (∀ m : Nat, m < (batchesOf items).length →
        ((bulk_ingest encode items).1.get? (3 * m + 1) =
          ((batchesOf items).get? m).map
            (fun b => BulkEvent.upsertB (encode_batch encode b)) ∧
         (bulk_ingest encode items).1.get? (3 * m) =
          ((batchesOf items).get? m).map BulkEvent.encodeB)) ∧
    ((bulk_ingest encode items).2 = items.length) := by
  refine ⟨bulkTrace_eq encode items, ?_, batchesOf_flatten items,
    batchesOf_get_full items, batchesOf_sizes items, ?_, rfl⟩
  · rw [show (bulk_ingest encode items).1 = bulkTrace encode items from rfl,
      bulkTrace_eq encode items, trace_upsert_count encode (batchesOf items),
      batchesOf_length items]
  · intro m hm
    have h := trace_positions encode (batchesOf items) m hm
    rw [show (bulk_ingest encode items).1 = bulkTrace encode items from rfl,
      bulkTrace_eq encode items]
    exact ⟨h.2, h.1⟩

/-- **C5** witness: three items fit in a single batch — one upsert event,
batches flatten to the input, and the returned count is 3. -/
theorem bulk_ingest_batching_witness :
    (((bulk_ingest encode0 [it0, itN, itT]).1.filter isUpsertB).length = 1) ∧
      ((batchesOf [it0, itN, itT]).flatten = [it0, itN, itT]) ∧
      ((bulk_ingest encode0 [it0, itN, itT]).2 = 3) := by
  obtain ⟨-, h2, h3, -, -, -, h7⟩ := bulk_ingest_batching encode0 [it0, itN, itT]
  exact ⟨h2.trans rfl, h3, h7.trans rfl⟩

/-- **C6** (amended). For a bulk item with a *nonzero* integer `startTime`,
the stored `start_time` is the ISO-8601 UTC string for that instant; for an
absent — or zero, since `if it.startTime:` tests Python truthiness —
`startTime`, the payload stores `start_time` as a null value (the key is
present, mapped to `None`); no item is ever stored with the epoch-zero
timestamp string in place of an absent one. -/
theorem bulk_start_time (encode : String → List Float) (it : BulkIngestItem) :
    (∀ n, it.startTime = some n → ¬ n = 0 →
        ((bulkEncodeItem encode it).payload).pyGet "start_time" =
          Value.vStr (isoUtc n)) ∧
    ((it.startTime = none ∨ it.startTime = some 0) →
        ((bulkEncodeItem encode it).payload).pyGet "start_time" = Value.vNull) ∧
    (it.startTime = none →
        ¬ ((bulkEncodeItem encode it).payload).pyGet "start_time" =
            Value.vStr (isoUtc 0)) := by
  have hbase : ((bulkEncodeItem encode it).payload).pyGet "start_time" =
      bulkIsoTime it.startTime := rfl
  refine ⟨?_, ?_, ?_⟩
  · intro n hn hnz
    rw [hbase, hn]
    simp [bulkIsoTime, hnz]
  · rintro (hn | hn) <;> rw [hbase, hn] <;> simp [bulkIsoTime]
  · intro hn
    rw [hbase, hn]
    simp [bulkIsoTime]

/-- **C6** counterexample: the item with `startTime = 0` (a legitimate integer
epoch-second, 1970-01-01T00:00:00+00:00) is stored with a null `start_time`,
not the ISO string the claim requires; and for an absent `startTime` the
`start_time` key is still present in the stored payload (mapped to null),
not absent. -/
theorem bulk_start_time_cex :
    ((bulkEncodeItem encode0 it0).payload).pyGet "start_time" = Value.vNull ∧
      ¬ Value.vNull = Value.vStr (isoUtc 0) ∧
      ((bulkEncodeItem encode0 itN).payload).hasKey "start_time" = true := by
  exact ⟨rfl, by decide, rfl⟩

/-- **C6** witness: `startTime = 1700000000` is stored as its ISO form. -/
theorem bulk_start_time_witness :
    ((bulkEncodeItem encode0 itT).payload).pyGet "start_time" =
      Value.vStr "2023-11-14T22:13:20+00:00" := by
  have h := (bulk_start_time encode0 itT).1 1700000000 rfl (by decide)
  rw [h, isoUtc_modern]

/-- **C7** (amended). Both ingestion entry points always store all four
metadata keys in the payload; a key whose value is absent on the item is
stored with a null value (Python `None`), not omitted. -/
theorem payload_keys_total (encode : String → List Float) (item : UpsertItem)
    (it : BulkIngestItem) :
    (∀ key, key ∈ (["title", "description", "channel", "start_time"] : List String) →
        ((upsertPoint encode item).payload).hasKey key = true ∧
        ((bulkEncodeItem encode it).payload).hasKey key = true) ∧
    (item.description = none →
        ((upsertPoint encode item).payload).pyGet "description" = Value.vNull) ∧
    (item.channel = none →
        ((upsertPoint encode item).payload).pyGet "channel" = Value.vNull) ∧
    (item.start_time = none →
        ((upsertPoint encode item).payload).pyGet "start_time" = Value.vNull) ∧
    (it.description = none →
        ((bulkEncodeItem encode it).payload).pyGet "description" = Value.vNull) ∧
    (it.channelId = none →
        ((bulkEncodeItem encode it).payload).pyGet "channel" = Value.vNull) ∧
    (it.startTime = none →
        ((bulkEncodeItem encode it).payload).pyGet "start_time" = Value.vNull) := by
  refine ⟨?_, ?_, ?_, ?_, ?_, ?_, ?_⟩
  · intro key hkey
    fin_cases hkey <;> exact ⟨rfl, rfl⟩
  · intro h
    have : ((upsertPoint encode item).payload).pyGet "description" =
        optValStr item.description := rfl
    rw [this, h]
    rfl
  · intro h
    have : ((upsertPoint encode item).payload).pyGet "channel" =
        optValStr item.channel := rfl
    rw [this, h]
    rfl
  · intro h
    have : ((upsertPoint encode item).payload).pyGet "start_time" =
        optValStr item.start_time := rfl
    rw [this, h]
    rfl
  · intro h
    have : ((bulkEncodeItem encode it).payload).pyGet "description" =
        optValStr it.description := rfl
    rw [this, h]
    rfl
  · intro h
    have : ((bulkEncodeItem encode it).payload).pyGet "channel" =
        bulkChannelVal it.channelId := rfl
    rw [this, h]
    rfl
  · intro h
    have : ((bulkEncodeItem encode it).payload).pyGet "start_time" =
        bulkIsoTime it.startTime := rfl
    rw [this, h]
    rfl

/-- **C7** counterexample: an `UpsertItem` with no description is stored with
the "description" key present and mapped to null — the key is not omitted,
contrary to the claim. -/
theorem payload_keys_cex :
    ((upsertPoint encode0 item0).payload).hasKey "description" = true ∧
      ((upsertPoint encode0 item0).payload).pyGet "description" = Value.vNull := by
  exact ⟨rfl, rfl⟩

/-- **C7** witness: the amended statement at a concrete absent channel. -/
theorem payload_keys_witness :
    ((upsertPoint encode0 item0).payload).pyGet "channel" = Value.vNull :=
  (payload_keys_total encode0 item0 itCh).2.2.1 rfl

/-- **C8** (amended). `build_signature` puts `title or ""` first, appends the
description as a second part only when it is non-empty/non-absent, joins the
parts with the separator `" \n"` (a space followed by a newline — not a bare
newline) with no trailing separator, and ignores `genres` and `cast`. -/
theorem build_signature_spec (title description : Option String)
    (g1 c1 g2 c2 : Option (List String)) :
    (build_signature title description g1 c1 =
        build_signature title description g2 c2) ∧
    ((description = none ∨ description = some "") →
        build_signature title description g1 c1 = pyOrEmpty title) ∧
    (∀ s, description = some s → ¬ s = "" →
        build_signature title description g1 c1 = pyOrEmpty title ++ " \n" ++ s) := by
  refine ⟨rfl, ?_, ?_⟩
  · rintro (h | h) <;> rw [build_signature, h] <;> rfl
  · intro s hs hne
    rw [build_signature, hs]
    have ht : strTruthy (some s) = true := by simp [strTruthy, hne]
    rw [ht]
    rfl

/-- **C8** counterexample: the separator is `" \n"`, not the newline `"\n"`
the claim states: `build_signature("a", "b")` is `"a \nb"`, which differs
from `"a" ++ "\n" ++ "b"`. -/
theorem build_signature_cex :
    build_signature (some "a") (some "b") none none = "a \nb" ∧
      ¬ build_signature (some "a") (some "b") none none = "a" ++ "\n" ++ "b" := by
  exact ⟨rfl, by decide⟩

/-- **C8** witness: the amended separator equation at a concrete input. -/
theorem build_signature_witness :
    build_signature (some "a") (some "b") none none =
      pyOrEmpty (some "a") ++ " \n" ++ "b" :=
  (build_signature_spec (some "a") (some "b") none none none none).2.2 "b" rfl
    (by decide)

end Wattowa
